import Mathlib

set_option maxRecDepth 100000

/-!
Verification of the EOT header generator (`eotlitetool.py`) and the
build-plugin orchestration (`parts/plugins/x-syncthing.py`) of this
repository, as a shallow embedding in Lean.

Bytes are modelled as `List Nat` (each entry a value `< 256` where it
matters).  Python's `struct.unpack` raises `struct.error` when the buffer
length differs from the format's size; every unpack site in the source is
embedded with that exact-length check.  Python slices `b[s:e]` clamp to
the buffer, which `(b.take e).drop s` reproduces.
-/

namespace Eot

/-- Raw byte sequences (`str` in the Python 2 source). -/
abbrev Bytes := List Nat

/-- Byte at index `i` (only read at indices guarded in-bounds by the source). -/
def byteAt (b : Bytes) (i : Nat) : Nat := b.getD i 0

/-- Big-endian 16-bit read at index `i` (struct format `>H`). -/
def u16beAt (b : Bytes) (i : Nat) : Nat := byteAt b i * 256 + byteAt b (i + 1)

/-- Big-endian 32-bit read at index `i` (struct format `>I` / `>L`). -/
def u32beAt (b : Bytes) (i : Nat) : Nat :=
  byteAt b i * 16777216 + byteAt b (i + 1) * 65536 + byteAt b (i + 2) * 256 + byteAt b (i + 3)

/-- Python slice `b[s:e]` for non-negative bounds: clamps at the buffer end. -/
def pySlice (b : Bytes) (s e : Nat) : Bytes := (b.take e).drop s

/-- Little-endian serialization of a 16-bit value (struct format `<H`). -/
def u16le (n : Nat) : Bytes := [n % 256, n / 256 % 256]

/-- Little-endian serialization of a 32-bit value (struct format `<L`). -/
def u32le (n : Nat) : Bytes := [n % 256, n / 256 % 256, n / 65536 % 256, n / 16777216 % 256]

/-- Little-endian 32-bit read at index `i` of a produced header. -/
def u32leAt (b : Bytes) (i : Nat) : Nat :=
  byteAt b i + byteAt b (i + 1) * 256 + byteAt b (i + 2) * 65536 + byteAt b (i + 3) * 16777216

/-- Parse consecutive big-endian 16-bit units (struct format `>kH` applied to a
    buffer of exactly `2*k` bytes). -/
def parseU16be : Bytes → List Nat
  | a :: b :: rest => (a * 256 + b) :: parseU16be rest
  | _ => []

/-- Swap each adjacent byte pair: the effect of re-serializing big-endian
    16-bit units in little-endian order. -/
def swapPairs : Bytes → Bytes
  | a :: b :: rest => b :: a :: swapPairs rest
  | rest => rest

/-- `multichar` of the source applied to the tag strings used there. -/
def SFNT_CFF : Nat := 0x4F54544F     -- multichar('OTTO')
def SFNT_TRUE : Nat := 0x10000       -- standard TrueType version
def SFNT_APPLE : Nat := 0x74727565   -- multichar('true'), declared but never accepted
def TABLE_HEAD : Nat := 0x68656164   -- multichar('head')
def TABLE_NAME : Nat := 0x6E616D65   -- multichar('name')
def TABLE_OS2 : Nat := 0x4F532F32    -- multichar('OS/2')

/-- Errors raised by the source.  The `FontError` messages of
    `eotlitetool.py` each get a constructor; `structError` stands for a raw
    Python `struct.error` escaping from `struct.unpack`, which is outside the
    `FontError` taxonomy. -/
inductive FontErr where
  | truncatedFontData                   -- 'truncated font data'
  | invalidFontType                     -- 'invalid font type'
  | truncatedTableDirectory             -- 'truncated font data, table directory extends past end of data'
  | missingRequiredTable (tag : Nat)    -- 'missing required table <tag>'
  | namesExceedNameTable                -- 'names exceed size of name table'
  | os2InvalidLength                    -- 'OS/2 table invalid length'
  | headInvalidLength                   -- 'head table invalid length'
  | structError                         -- raw struct.error (not a FontError)
deriving DecidableEq, Repr

/-- One table-directory entry (`{'offset':…, 'length':…, 'checksum':…}`). -/
structure TableEntry where
  offset : Nat
  length : Nat
  checksum : Nat
deriving DecidableEq, Repr

/-- The `font` dict built by `get_table_directory`.  The table directory is
    kept in insertion order; duplicate tags override earlier ones, as in a
    Python dict. -/
structure Font where
  version : Nat
  numTables : Nat
  tableDir : List (Nat × TableEntry)
deriving DecidableEq, Repr

/-- Python-dict lookup: later assignments win, so search from the end. -/
def dirLookup (d : List (Nat × TableEntry)) (tag : Nat) : Option TableEntry :=
  d.reverse.lookup tag

/-- `get_table_directory(data)`: read the 12-byte SFNT header and the
    `numTables` 16-byte directory entries. -/
def get_table_directory (data : Bytes) : Except FontErr Font :=
  let datalen := data.length
  let sfntsize := 12
  if sfntsize > datalen then .error .truncatedFontData
  else
    let sfntvers := u32beAt data 0
    let numTables := u16beAt data 4
    if sfntvers ≠ SFNT_CFF ∧ sfntvers ≠ SFNT_TRUE then .error .invalidFontType
    else if sfntsize + 16 * numTables > datalen then .error .truncatedTableDirectory
    else
      let entries := (List.range numTables).map (fun i =>
        let start := sfntsize + i * 16
        (u32beAt data start,
         TableEntry.mk (u32beAt data (start + 8)) (u32beAt data (start + 12))
           (u32beAt data (start + 4))))
      .ok ⟨sfntvers, numTables, entries⟩

/-- The `name` dict built by `get_name_records`: header fields plus the
    retained records `nameID ↦ (offset, length)` in scan order (later
    duplicates override, as in a Python dict). -/
structure NameInfo where
  count : Nat
  strOffset : Nat
  namerecords : List (Nat × Nat × Nat)
deriving DecidableEq, Repr

/-- Python-dict lookup for name records: later assignments win. -/
def nameRecLookup (rs : List (Nat × Nat × Nat)) (nameID : Nat) : Option (Nat × Nat) :=
  rs.reverse.lookup nameID

/-- `get_name_records(nametable)`: unpack the header at `nametable[2:6]`
    (a raw `struct.error` if the table is shorter than 6 bytes), bound-check
    the record array, then retain records with platform 3 (Microsoft),
    encoding 1 (Unicode BMP), language 0x0409 (US English). -/
def get_name_records (nametable : Bytes) : Except FontErr NameInfo :=
  if (pySlice nametable 2 6).length ≠ 4 then .error .structError
  else
    let count := u16beAt nametable 2
    let strOffset := u16beAt nametable 4
    if count * 12 + 6 > nametable.length then .error .namesExceedNameTable
    else
      let recs := (List.range count).foldl (fun acc i =>
        let start := 6 + i * 12
        let platformID := u16beAt nametable start
        let encodingID := u16beAt nametable (start + 2)
        let languageID := u16beAt nametable (start + 4)
        let nameID := u16beAt nametable (start + 6)
        let namelen := u16beAt nametable (start + 8)
        let offset := u16beAt nametable (start + 10)
        if platformID = 3 ∧ encodingID = 1 ∧ languageID = 0x0409 then
          acc ++ [(nameID, offset, namelen)]
        else acc) []
      .ok ⟨count, strOffset, recs⟩

/-- One iteration of the name-emission loop of `make_eot_name_headers` for a
    desired `nameid`: if a retained record exists, unpack
    `fontdata[start:start+nlen]` as `>⌊nlen/2⌋H` (raw `struct.error` when the
    slice length differs from `2*⌊nlen/2⌋`) and re-pack it as
    `<H ⌊nlen/2⌋H 2x`; otherwise emit `struct.pack('4x')`. -/
def eotNameBlock (fontdata : Bytes) (nameoffset strOffset : Nat)
    (recs : List (Nat × Nat × Nat)) (nameid : Nat) : Except FontErr Bytes :=
  match nameRecLookup recs nameid with
  | some (noffset, nlen) =>
    let start := nameoffset + strOffset + noffset
    let s := pySlice fontdata start (start + nlen)
    if s.length ≠ 2 * (nlen / 2) then .error .structError
    else .ok (u16le nlen ++ ((parseU16be s).map u16le).flatten ++ [0, 0])
  | none => .ok [0, 0, 0, 0]

/-- `make_eot_name_headers(fontdata, nameTableDir)`: slice out the name
    table, read its records, and emit the four desired name blocks in the
    order family (1), style (2), version (5), full (4). -/
def make_eot_name_headers (fontdata : Bytes) (nameDir : TableEntry) :
    Except FontErr Bytes := do
  let nametable := pySlice fontdata nameDir.offset (nameDir.offset + nameDir.length)
  let name ← get_name_records nametable
  let b1 ← eotNameBlock fontdata nameDir.offset name.strOffset name.namerecords 1
  let b2 ← eotNameBlock fontdata nameDir.offset name.strOffset name.namerecords 2
  let b5 ← eotNameBlock fontdata nameDir.offset name.strOffset name.namerecords 5
  let b4 ← eotNameBlock fontdata nameDir.offset name.strOffset name.namerecords 4
  pure (b1 ++ b2 ++ b5 ++ b4)

/-- `make_root_string()`: `struct.pack('2x')`. -/
def make_root_string : Bytes := [0, 0]

/-- The fields extracted from the OS/2 table by format
    `>4xH2xH22x10B4L4xH14x2L`. -/
structure Os2Fields where
  weight : Nat
  fsType : Nat
  panose : List Nat
  urange : List Nat
  fsSelection : Nat
  codepage : List Nat
deriving DecidableEq, Repr

/-- Unpack the OS/2 fixed region (size 86); raw `struct.error` when the
    buffer length differs. -/
def unpackOs2 (s : Bytes) : Except FontErr Os2Fields :=
  if s.length ≠ 86 then .error .structError
  else .ok ⟨u16beAt s 4, u16beAt s 8,
    (List.range 10).map (fun i => byteAt s (32 + i)),
    (List.range 4).map (fun i => u32beAt s (42 + 4 * i)),
    u16beAt s 62,
    [u32beAt s 78, u32beAt s 82]⟩

/-- Unpack the head fields (format `>8xL`, size 12): `checkSumAdjustment`. -/
def unpackHead (s : Bytes) : Except FontErr Nat :=
  if s.length ≠ 12 then .error .structError
  else .ok (u32beAt s 8)

/-- `struct.pack('<4L10B2BL2H7L18x', …)` with the argument list of the
    source: eotSize, fontDataSize, version, flags, panose, charset, italic,
    weight, fsType, magicNumber, urange, codepage, checkSumAdjustment. -/
def packEotFixed (eotSize fontDataSize : Nat) (os2 : Os2Fields)
    (italic checkSum : Nat) : Bytes :=
  u32le eotSize ++ u32le fontDataSize ++ u32le 0x00020001 ++ u32le 0 ++
  os2.panose ++ [0x01, italic] ++
  u32le os2.weight ++ u16le os2.fsType ++ u16le 0x504C ++
  (os2.urange.map u32le).flatten ++ (os2.codepage.map u32le).flatten ++
  u32le checkSum ++ List.replicate 18 0

/-- `make_eot_header(fontdata)`.  Faithful to the source order: directory,
    required-table checks (head, name, OS/2), OS/2 declared-length check and
    unpack, head declared-length check and unpack, name headers, root string,
    then the final pack.  `struct.pack('<L', eotSize)` raises when the value
    does not fit 32 bits, hence the final guard. -/
def make_eot_header (fontdata : Bytes) : Except FontErr Bytes :=
  match get_table_directory fontdata with
  | .error e => .error e
  | .ok font =>
    match dirLookup font.tableDir TABLE_HEAD with
    | none => .error (.missingRequiredTable TABLE_HEAD)
    | some headDir =>
      match dirLookup font.tableDir TABLE_NAME with
      | none => .error (.missingRequiredTable TABLE_NAME)
      | some nameDir =>
        match dirLookup font.tableDir TABLE_OS2 with
        | none => .error (.missingRequiredTable TABLE_OS2)
        | some os2Dir =>
          if 86 > os2Dir.length then .error .os2InvalidLength
          else
            match unpackOs2 (pySlice fontdata os2Dir.offset (os2Dir.offset + 86)) with
            | .error e => .error e
            | .ok os2 =>
              if 12 > headDir.length then .error .headInvalidLength
              else
                match unpackHead (pySlice fontdata headDir.offset (headDir.offset + 12)) with
                | .error e => .error e
                | .ok checkSumAdjustment =>
                  match make_eot_name_headers fontdata nameDir with
                  | .error e => .error e
                  | .ok nameheaders =>
                    let rootstring := make_root_string
                    let eotSize :=
                      82 + nameheaders.length + rootstring.length + fontdata.length
                    if eotSize < 4294967296 then
                      .ok (packEotFixed eotSize fontdata.length os2
                            (os2.fsSelection % 2) checkSumAdjustment
                           ++ nameheaders ++ rootstring)
                    else .error .structError

/-- The first missing tag among the required tables, checked in the order of
    the source: head, name, OS/2. -/
def firstMissingRequired (d : List (Nat × TableEntry)) : Option Nat :=
  if (dirLookup d TABLE_HEAD).isNone then some TABLE_HEAD
  else if (dirLookup d TABLE_NAME).isNone then some TABLE_NAME
  else if (dirLookup d TABLE_OS2).isNone then some TABLE_OS2
  else none

/-! Concrete fonts used to exercise the embedding. -/

/-- A minimal synthetic TrueType blob: SFNT header with `numTables = 3`,
    directory entries for head (offset 60, length 12), name (offset 72,
    length 6) and OS/2 (offset 78, length 86); the name table has zero name
    records.  Total length 164 bytes. -/
def minimalBlob : Bytes :=
  [0, 1, 0, 0, 0, 3, 0, 0, 0, 0, 0, 0] ++
  [0x68, 0x65, 0x61, 0x64, 0, 0, 0, 0, 0, 0, 0, 60, 0, 0, 0, 12] ++
  [0x6E, 0x61, 0x6D, 0x65, 0, 0, 0, 0, 0, 0, 0, 72, 0, 0, 0, 6] ++
  [0x4F, 0x53, 0x2F, 0x32, 0, 0, 0, 0, 0, 0, 0, 78, 0, 0, 0, 86] ++
  [0, 0, 0, 0, 0, 0, 0, 0, 0x11, 0x22, 0x33, 0x44] ++
  [0, 0, 0, 0, 0, 6] ++
  List.replicate 86 0

/-- The header `make_eot_header` produces for `minimalBlob`. -/
def minimalHeader : Bytes := (make_eot_header minimalBlob).toOption.getD []

/-- `minimalBlob` with its SFNT version replaced by `multichar('true')`,
    the Apple TrueType signature. -/
def appleBlob : Bytes := [0x74, 0x72, 0x75, 0x65] ++ minimalBlob.drop 4

/-- A blob like `minimalBlob` but whose name table (offset 72, length 22)
    holds one retained record: platform 3, encoding 1, language 0x0409,
    nameID 1, length 4, offset 0; string storage at table offset 18 holds
    UTF-16BE "AB".  OS/2 sits at offset 94.  Total length 180 bytes. -/
def recordBlob : Bytes :=
  [0, 1, 0, 0, 0, 3, 0, 0, 0, 0, 0, 0] ++
  [0x68, 0x65, 0x61, 0x64, 0, 0, 0, 0, 0, 0, 0, 60, 0, 0, 0, 12] ++
  [0x6E, 0x61, 0x6D, 0x65, 0, 0, 0, 0, 0, 0, 0, 72, 0, 0, 0, 22] ++
  [0x4F, 0x53, 0x2F, 0x32, 0, 0, 0, 0, 0, 0, 0, 94, 0, 0, 0, 86] ++
  [0, 0, 0, 0, 0, 0, 0, 0, 0x11, 0x22, 0x33, 0x44] ++
  ([0, 0, 0, 1, 0, 18] ++ [0, 3, 0, 1, 0x04, 0x09, 0, 1, 0, 4, 0, 0] ++
   [0, 0x41, 0, 0x42]) ++
  List.replicate 86 0

/-- A blob whose name table (offset 158, declared length 20) holds one
    retained record with an odd declared string length 3, whose string
    storage starts 2 bytes before the end of the blob: the slice
    `fontdata[176:179]` clamps to 2 bytes, exactly `2*(3/2)`.  OS/2 sits at
    offset 72, head at 60.  Total length 178 bytes. -/
def oddClippedBlob : Bytes :=
  [0, 1, 0, 0, 0, 3, 0, 0, 0, 0, 0, 0] ++
  [0x68, 0x65, 0x61, 0x64, 0, 0, 0, 0, 0, 0, 0, 60, 0, 0, 0, 12] ++
  [0x6E, 0x61, 0x6D, 0x65, 0, 0, 0, 0, 0, 0, 0, 158, 0, 0, 0, 20] ++
  [0x4F, 0x53, 0x2F, 0x32, 0, 0, 0, 0, 0, 0, 0, 72, 0, 0, 0, 86] ++
  [0, 0, 0, 0, 0, 0, 0, 0, 0x11, 0x22, 0x33, 0x44] ++
  List.replicate 86 0 ++
  ([0, 0, 0, 1, 0, 18] ++ [0, 3, 0, 1, 0x04, 0x09, 0, 1, 0, 3, 0, 0] ++
   [0, 0x41])

/-- A 12-byte blob with a valid TrueType version and `numTables = 0`:
    the table directory parses but contains no tables at all. -/
def emptyDirBlob : Bytes := [0, 1, 0, 0, 0, 0, 0, 0, 0, 0, 0, 0]

/-- A blob that passes the SFNT, directory-count, required-table and
    declared-length checks, but whose OS/2 entry declares offset 1000 —
    past the end of the 78-byte blob. -/
def badOffsetBlob : Bytes :=
  [0, 1, 0, 0, 0, 3, 0, 0, 0, 0, 0, 0] ++
  [0x68, 0x65, 0x61, 0x64, 0, 0, 0, 0, 0, 0, 0, 60, 0, 0, 0, 12] ++
  [0x6E, 0x61, 0x6D, 0x65, 0, 0, 0, 0, 0, 0, 0, 72, 0, 0, 0, 6] ++
  [0x4F, 0x53, 0x2F, 0x32, 0, 0, 0, 0, 0, 0, 0x03, 0xE8, 0, 0, 0, 86] ++
  [0, 0, 0, 0, 0, 0, 0, 0, 0x11, 0x22, 0x33, 0x44] ++
  [0, 0, 0, 0, 0, 6]

end Eot

namespace GoPlug

/-!
Model of the `GoPlugin` overrides of `parts/plugins/x-syncthing.py`.

The filesystem is modelled as a partial map from paths (component lists)
to nodes.  `os.makedirs(…, exist_ok=True)` creates every missing ancestor
as a directory and fails when an existing ancestor is not a directory;
`os.path.islink` / `os.unlink` test and remove a symlink entry;
`shutil.rmtree` removes a whole subtree.  The framework base-class steps
(`super().pull()`, `super().clean_build()`) act outside the modelled
`go` workspace (source fetch, build dir) and are treated as external
collaborators, per the spec's scope.
-/

/-- A filesystem path, as a list of components. -/
abbrev Path := List String

/-- A filesystem node. -/
inductive Node where
  | file (content : List Nat)
  | dir
  | symlink (target : Path)
deriving DecidableEq

/-- A filesystem: which node, if any, lives at each path. -/
def FS := Path → Option Node

/-- `os.path.isdir` (the uses in the source do not involve symlinked dirs). -/
def isdir (fs : FS) (p : Path) : Bool :=
  match fs p with
  | some .dir => true
  | _ => false

/-- `os.path.islink`. -/
def islink (fs : FS) (p : Path) : Bool :=
  match fs p with
  | some (.symlink _) => true
  | _ => false

/-- A path at which `os.makedirs` may proceed: missing or already a directory. -/
def dirOrMissing (fs : FS) (p : Path) : Bool :=
  match fs p with
  | none => true
  | some .dir => true
  | _ => false

/-- `os.makedirs(p, exist_ok=True)`: every prefix of `p` must be a directory
    or missing; the missing ones are created. -/
def makedirs (fs : FS) (p : Path) : Except Unit FS :=
  if p.inits.all (fun q => dirOrMissing fs q) then
    .ok (fun q => if q ∈ p.inits then some .dir else fs q)
  else .error ()

/-- `os.unlink p` (the source only calls it on a path known to be a symlink). -/
def removePath (fs : FS) (p : Path) : FS :=
  fun q => if q = p then none else fs q

/-- `shutil.rmtree p`: remove the whole subtree rooted at `p`. -/
def rmtree (fs : FS) (p : Path) : FS :=
  fun q => if p.isPrefixOf q then none else fs q

/-- Modelled from the spec: snapcraft's `file_utils.link_or_copy_tree`
    (imported by the plugin, not part of src/) — "copies (or links)
    `sourceDir`'s full tree into the import-path-qualified location".
    The destination subtree becomes a copy of the source subtree. -/
def link_or_copy_tree (fs : FS) (src dst : Path) : FS :=
  fun q => if dst.isPrefixOf q then fs (src ++ q.drop dst.length) else fs q

/-- The plugin's path configuration: `self.partdir`, `self.sourcedir` and
    the `go-importpath` option (split into path components). -/
structure Cfg where
  partdir : Path
  sourcedir : Path
  importpath : Path

/-- `self._gopath`. -/
def gopath (g : Cfg) : Path := g.partdir ++ ["go"]

/-- `self._gopath_src`. -/
def gopathSrc (g : Cfg) : Path := g.partdir ++ ["go", "src"]

/-- `self._gopath_pkg`. -/
def gopathPkg (g : Cfg) : Path := g.partdir ++ ["go", "pkg"]

/-- `go_package_path = os.path.join(self._gopath_src, go_package)`. -/
def packagePath (g : Cfg) : Path := gopathSrc g ++ g.importpath

/-- `GoPlugin.pull` after `super().pull()` (the framework fetch into
    `self.sourcedir`, an external collaborator): create the gopath src tree,
    drop a pre-existing staging symlink at the package path, create the
    package path's parent, and copy the source tree in. -/
def pull (g : Cfg) (fs : FS) : Except Unit FS := do
  let fs1 ← makedirs fs (gopathSrc g)
  let target := packagePath g
  let fs2 := if islink fs1 target then removePath fs1 target else fs1
  let fs3 ← makedirs fs2 target.dropLast
  pure (link_or_copy_tree fs3 g.sourcedir target)

/-- `GoPlugin.clean_build` after `super().clean_build()` (which clears the
    framework's build dir, outside the modelled workspace): remove the
    package-cache tree when it exists, otherwise do nothing. -/
def clean_build (g : Cfg) (fs : FS) : FS :=
  if isdir fs (gopathPkg g) then rmtree fs (gopathPkg g) else fs

/-! Concrete instances used as witnesses. -/

/-- A concrete plugin configuration: part dir `w`, source dir `s`, and
    the go package path `i`. -/
def gEx : Cfg := ⟨["w"], ["s"], ["i"]⟩

/-- A concrete starting filesystem: the source directory `s` containing one
    file, and a stale staging symlink already at the package path. -/
def fsEx : FS := fun p =>
  if p = [] then some .dir
  else if p = ["s"] then some .dir
  else if p = ["s", "f"] then some (.file [7]) else
  if p = ["w"] then some .dir
  else if p = ["w", "go"] then some .dir
  else if p = ["w", "go", "src"] then some .dir
  else if p = ["w", "go", "src", "i"] then some (.symlink ["elsewhere"])
  else if p = ["w", "go", "pkg"] then some .dir
  else if p = ["w", "go", "pkg", "obj"] then some (.file [9])
  else none

/-- The filesystem after the first `pull` on `fsEx`. -/
def fs1Ex : FS := (pull gEx fsEx).toOption.getD (fun _ => none)

end GoPlug

namespace Eot

/-! Helper lemmas. -/

/-- A Python slice of `n` bytes starting at `s` has length `n` whenever it
    lies within the buffer. -/
theorem pySlice_length (b : Bytes) (s n : Nat) (h : s + n ≤ b.length) :
    (pySlice b s (s + n)).length = n := by
  simp [pySlice]; omega

/-- Bytes of a slice are bytes of the original buffer. -/
theorem mem_pySlice {x : Nat} (b : Bytes) (s e : Nat) (hx : x ∈ pySlice b s e) :
    x ∈ b :=
  List.mem_of_mem_take (List.mem_of_mem_drop hx)

/-- Reading back the little-endian serialization of a 32-bit value. -/
theorem u32leAt_u32le (n : Nat) (r : Bytes) :
    u32leAt (u32le n ++ r) 0 = n % 4294967296 := by
  show u32leAt (n % 256 :: n / 256 % 256 :: n / 65536 % 256 :: n / 16777216 % 256 :: r) 0
      = n % 4294967296
  simp [u32leAt, byteAt]
  omega

/-- Unpacking then little-endian re-packing 16-bit units swaps each byte
    pair, for buffers of valid bytes and even length. -/
theorem parse_pack_swapPairs : ∀ s : Bytes, (∀ x ∈ s, x < 256) → s.length % 2 = 0 →
    ((parseU16be s).map u16le).flatten = swapPairs s
  | [], _, _ => by simp [parseU16be, swapPairs]
  | [a], _, h => by simp at h
  | a :: b :: rest, hv, h => by
    have ha : a < 256 := hv a (by simp)
    have hb : b < 256 := hv b (by simp)
    have h2 : rest.length % 2 = 0 := by simp [List.length_cons] at h; omega
    have hrec := parse_pack_swapPairs rest (fun x hx => hv x (by simp [hx])) h2
    simp [parseU16be, swapPairs, u16le, hrec]
    constructor <;> omega

/-- Shape of the fields extracted from the OS/2 table. -/
theorem unpackOs2_shape (s : Bytes) (f : Os2Fields) (h : unpackOs2 s = Except.ok f) :
    f.panose.length = 10 ∧ f.urange.length = 4 ∧ f.codepage.length = 2 := by
  unfold unpackOs2 at h
  split at h
  · exact absurd h (by simp)
  · rw [Except.ok.injEq] at h
    subst h
    simp

/-- Total length of flattened 32-bit little-endian serializations. -/
theorem sum_map_length_u32le (l : List Nat) :
    (l.map (List.length ∘ u32le)).sum = 4 * l.length := by
  induction l with
  | nil => simp
  | cons a t ih => simp [u32le, ih]; omega

/-- The fixed EOT header always packs to exactly 82 bytes. -/
theorem packEotFixed_length (e fd : Nat) (os2 : Os2Fields) (it cs : Nat)
    (hp : os2.panose.length = 10) (hu : os2.urange.length = 4)
    (hc : os2.codepage.length = 2) :
    (packEotFixed e fd os2 it cs).length = 82 := by
  simp [packEotFixed, u32le, u16le, hp, sum_map_length_u32le, hu, hc]

/-- Binding never produces an error value that neither side produces. -/
theorem bind_ne_error {α β : Type} (m : Except FontErr α)
    (k : α → Except FontErr β) (c : FontErr)
    (hm : m ≠ Except.error c) (hk : ∀ a, k a ≠ Except.error c) :
    (m >>= k) ≠ Except.error c := by
  cases m with
  | error e =>
    simp only [Bind.bind, Except.bind]
    intro hcontra
    rw [Except.error.injEq] at hcontra
    subst hcontra
    exact hm rfl
  | ok a =>
    simp only [Bind.bind, Except.bind]
    exact hk a

/-- `unpackOs2` never raises the invalid-font-type error. -/
theorem unpackOs2_ne_invalid (s : Bytes) :
    unpackOs2 s ≠ Except.error FontErr.invalidFontType := by
  unfold unpackOs2
  split <;> simp

/-- `unpackHead` never raises the invalid-font-type error. -/
theorem unpackHead_ne_invalid (s : Bytes) :
    unpackHead s ≠ Except.error FontErr.invalidFontType := by
  unfold unpackHead
  split <;> simp

/-- `get_name_records` never raises the invalid-font-type error. -/
theorem get_name_records_ne_invalid (nt : Bytes) :
    get_name_records nt ≠ Except.error FontErr.invalidFontType := by
  intro hcontra
  simp only [get_name_records] at hcontra
  repeat' (first | (split at hcontra) | (simp only [] at hcontra))
  all_goals simp_all

/-- `eotNameBlock` never raises the invalid-font-type error. -/
theorem eotNameBlock_ne_invalid (fd : Bytes) (no so : Nat)
    (rs : List (Nat × Nat × Nat)) (i : Nat) :
    eotNameBlock fd no so rs i ≠ Except.error FontErr.invalidFontType := by
  intro hcontra
  simp only [eotNameBlock] at hcontra
  repeat' (first | (split at hcontra) | (simp only [] at hcontra))
  all_goals simp_all

/-- `make_eot_name_headers` never raises the invalid-font-type error. -/
theorem make_eot_name_headers_ne_invalid (fd : Bytes) (nd : TableEntry) :
    make_eot_name_headers fd nd ≠ Except.error FontErr.invalidFontType := by
  unfold make_eot_name_headers
  refine bind_ne_error _ _ _ (get_name_records_ne_invalid _) (fun name => ?_)
  refine bind_ne_error _ _ _ (eotNameBlock_ne_invalid _ _ _ _ _) (fun b1 => ?_)
  refine bind_ne_error _ _ _ (eotNameBlock_ne_invalid _ _ _ _ _) (fun b2 => ?_)
  refine bind_ne_error _ _ _ (eotNameBlock_ne_invalid _ _ _ _ _) (fun b5 => ?_)
  refine bind_ne_error _ _ _ (eotNameBlock_ne_invalid _ _ _ _ _) (fun b4 => ?_)
  simp [pure, Except.pure]

/-- `make_eot_header` reports the invalid-font-type error exactly when the
    table-directory parse does: no later stage produces it. -/
theorem make_eot_header_invalid_iff (data : Bytes) :
    make_eot_header data = Except.error FontErr.invalidFontType ↔
      get_table_directory data = Except.error FontErr.invalidFontType := by
  cases hg : get_table_directory data with
  | error e => simp [make_eot_header, hg]
  | ok font =>
    simp only [make_eot_header, hg]
    constructor
    · intro hcontra
      repeat' (first | (split at hcontra) | (simp only [] at hcontra))
      all_goals simp_all [unpackOs2_ne_invalid, unpackHead_ne_invalid,
        make_eot_name_headers_ne_invalid]
    · intro hcontra
      simp at hcontra

/-! Claim theorems. -/

/-- C2 (amended): for every input long enough to carry the 12-byte SFNT
    header, `make_eot_header` fails with the invalid-font-type error exactly
    when the declared SFNT version is neither the PostScript-flavored
    signature `multichar('OTTO')` nor the standard TrueType version
    0x00010000.  In particular the Apple TrueType signature
    `multichar('true')`, although declared in the source, is rejected too. -/
theorem c2_version_gate (data : Bytes) (h12 : 12 ≤ data.length) :
    (make_eot_header data = Except.error FontErr.invalidFontType ↔
      ¬(u32beAt data 0 = SFNT_CFF ∨ u32beAt data 0 = SFNT_TRUE)) := by
  rw [make_eot_header_invalid_iff]
  simp only [get_table_directory]
  rw [if_neg (by omega)]
  split
  next hcond =>
    exact iff_of_true rfl (by tauto)
  next hcond =>
    rw [not_and_or, not_not, not_not] at hcond
    apply iff_of_false
    · intro hcontra
      split at hcontra <;> simp at hcontra
    · tauto

/-- C2 witness: the version gate evaluated on `minimalBlob` (length 164). -/
theorem c2_version_gate_witness :
    12 ≤ minimalBlob.length ∧
    (make_eot_header minimalBlob = Except.error FontErr.invalidFontType ↔
      ¬(u32beAt minimalBlob 0 = SFNT_CFF ∨ u32beAt minimalBlob 0 = SFNT_TRUE)) :=
  ⟨by decide, c2_version_gate minimalBlob (by decide)⟩

/-- C2 counterexample: a font whose declared SFNT version is the Apple
    TrueType signature `multichar('true')` is rejected with InvalidFontFormat
    (`invalid font type`), although the claim says that signature is
    accepted.  The blob is otherwise fully valid: restoring the standard
    version makes `make_eot_header` succeed. -/
theorem c2_apple_true_rejected :
    u32beAt appleBlob 0 = SFNT_APPLE ∧
    make_eot_header appleBlob = Except.error FontErr.invalidFontType ∧
    (make_eot_header minimalBlob).isOk = true := by
  refine ⟨by rfl, by rfl, by rfl⟩

/-- C3 counterexample: for a font whose retained records lack nameID 1, the
    emitted slot is `struct.pack('4x')` — four zero bytes (a 2-byte zero
    length field plus the 2-byte padding halfword) — not the 2 zero bytes the
    claim states. -/
theorem c3_absent_slot_is_four_bytes :
    eotNameBlock minimalBlob 72 6 [] 1 = Except.ok [0, 0, 0, 0] ∧
    ([0, 0, 0, 0] : Bytes) ≠ [0, 0] := by
  refine ⟨by rfl, by decide⟩

/-- C3 (amended): for every font whose retained name records lack a desired
    nameID, the emitted slot is a zero-length record of exactly 4 zero bytes
    (2-byte zero length prefix plus the 2-byte zero padding halfword), and
    the absence never raises an error. -/
theorem c3_absent_name_slot (fontdata : Bytes) (nameoffset strOffset : Nat)
    (recs : List (Nat × Nat × Nat)) (nameid : Nat)
    (habs : nameRecLookup recs nameid = none) :
    eotNameBlock fontdata nameoffset strOffset recs nameid =
      Except.ok [0, 0, 0, 0] := by
  unfold eotNameBlock
  rw [habs]

/-- C3 witness: the slot emission for nameID 1 on a record set with no
    retained records. -/
theorem c3_absent_name_slot_witness :
    nameRecLookup [] 1 = none ∧
    eotNameBlock recordBlob 72 18 [] 1 = Except.ok [0, 0, 0, 0] :=
  ⟨rfl, c3_absent_name_slot recordBlob 72 18 [] 1 rfl⟩

/-- C4 counterexample: on the minimal synthetic TrueType blob (numTables=3,
    only head/name/OS-2, no retained name records) the produced header is
    100 bytes, not the 92 bytes the claim states. -/
theorem c4_header_not_92_bytes :
    (make_eot_header minimalBlob).toOption.map List.length = some 100 ∧
    (100 : Nat) ≠ 92 := by
  refine ⟨by rfl, by decide⟩

/-- C4 (amended): on the minimal synthetic TrueType blob with numTables=3
    (head, name and OS/2 only, the name table holding no retained records),
    `make_eot_header` succeeds and returns a header of exactly
    82 + 16 (four empty name slots of 4 zero bytes each) + 2 (root string)
    = 100 bytes, whose fontDataSize field equals the input blob length. -/
theorem c4_minimal_header :
    make_eot_header minimalBlob = Except.ok minimalHeader ∧
    minimalHeader.length = 82 + 16 + 2 ∧
    u32leAt minimalHeader 4 = minimalBlob.length := by
  refine ⟨by rfl, by rfl, by rfl⟩

/-- C6: every retained name record that is present and lies (as declared)
    inside the blob, with the even byte length of well-formed UTF-16, is
    emitted as a little-endian 2-byte length prefix, the string bytes with
    each 16-bit unit byte-swapped from big- to little-endian, and one zero
    padding halfword. -/
theorem c6_name_reencoded_little_endian (fontdata : Bytes)
    (nameoffset strOffset : Nat) (recs : List (Nat × Nat × Nat))
    (nameid noffset nlen : Nat)
    (hv : ∀ x ∈ fontdata, x < 256)
    (hrec : nameRecLookup recs nameid = some (noffset, nlen))
    (heven : nlen % 2 = 0)
    (hbound : nameoffset + strOffset + noffset + nlen ≤ fontdata.length) :
    eotNameBlock fontdata nameoffset strOffset recs nameid =
      Except.ok (u16le nlen ++
        swapPairs (pySlice fontdata (nameoffset + strOffset + noffset)
          (nameoffset + strOffset + noffset + nlen)) ++ [0, 0]) := by
  have hlen : (pySlice fontdata (nameoffset + strOffset + noffset)
      (nameoffset + strOffset + noffset + nlen)).length = nlen :=
    pySlice_length _ _ _ hbound
  simp only [eotNameBlock, hrec]
  rw [if_neg (by omega)]
  rw [parse_pack_swapPairs _ (fun x hx => hv x (mem_pySlice _ _ _ hx))
    (by omega)]

/-- C6 witness: the record (nameID 1, offset 0, length 4) of `recordBlob`,
    whose string storage starts at byte 90. -/
theorem c6_name_reencoded_witness :
    nameRecLookup [(1, 0, 4)] 1 = some (0, 4) ∧
    eotNameBlock recordBlob 72 18 [(1, 0, 4)] 1 =
      Except.ok (u16le 4 ++ swapPairs (pySlice recordBlob 90 94) ++ [0, 0]) :=
  ⟨rfl, c6_name_reencoded_little_endian recordBlob 72 18 [(1, 0, 4)] 1 0 4
    (by decide) rfl (by decide) (by decide)⟩

/-- C7 counterexample: `oddClippedBlob` contains a retained name record of
    odd declared length 3, yet `make_eot_header` succeeds — the blob ends
    2 bytes after the string start, so `struct.unpack('>1H', …)` silently
    truncates the string to an even number of bytes instead of failing. -/
theorem c7_odd_length_can_truncate_silently :
    get_name_records (pySlice oddClippedBlob 158 178) =
      Except.ok ⟨1, 18, [(1, 0, 3)]⟩ ∧
    (make_eot_header oddClippedBlob).isOk = true := by
  refine ⟨by rfl, by rfl⟩

/-- C7 (amended): a retained name record with an odd declared byte length
    makes the emission fail (with a raw struct error, by the length mismatch
    of `struct.unpack`) whenever the declared string range lies within the
    blob; only when the blob ends early enough to clip the slice to an even
    byte count is the string silently truncated. -/
theorem c7_odd_length_fails (fontdata : Bytes) (nameoffset strOffset : Nat)
    (recs : List (Nat × Nat × Nat)) (nameid noffset nlen : Nat)
    (hrec : nameRecLookup recs nameid = some (noffset, nlen))
    (hodd : nlen % 2 = 1)
    (hbound : nameoffset + strOffset + noffset + nlen ≤ fontdata.length) :
    eotNameBlock fontdata nameoffset strOffset recs nameid =
      Except.error FontErr.structError := by
  have hlen : (pySlice fontdata (nameoffset + strOffset + noffset)
      (nameoffset + strOffset + noffset + nlen)).length = nlen :=
    pySlice_length _ _ _ hbound
  simp only [eotNameBlock, hrec]
  rw [if_pos (by omega)]

/-- C7 witness: an odd-length (3) record whose declared range lies inside
    `recordBlob`. -/
theorem c7_odd_length_fails_witness :
    nameRecLookup [(1, 0, 3)] 1 = some (0, 3) ∧
    eotNameBlock recordBlob 72 18 [(1, 0, 3)] 1 =
      Except.error FontErr.structError :=
  ⟨rfl, c7_odd_length_fails recordBlob 72 18 [(1, 0, 3)] 1 0 3 rfl
    (by decide) (by decide)⟩

/-- C1: whenever `make_eot_header` succeeds, the declared eotSize field
    (little-endian 32-bit at offset 0 of the returned header) equals exactly
    the 82-byte fixed header size plus the total byte length of the four
    variable name blocks plus the 2-byte root-string block plus the length
    of the input font blob — which is also exactly the byte length of the
    returned header plus the font, with no hidden padding. -/
theorem c1_eot_size_exact (data h : Bytes)
    (hok : make_eot_header data = Except.ok h) :
    ∃ font nameDir nameheaders,
      get_table_directory data = Except.ok font ∧
      dirLookup font.tableDir TABLE_NAME = some nameDir ∧
      make_eot_name_headers data nameDir = Except.ok nameheaders ∧
      h.length = 82 + nameheaders.length + make_root_string.length ∧
      u32leAt h 0 = 82 + nameheaders.length + make_root_string.length + data.length := by
  unfold make_eot_header at hok
  split at hok
  · exact absurd hok (by simp)
  next font hgtd =>
    split at hok
    · exact absurd hok (by simp)
    next headDir hhead =>
      split at hok
      · exact absurd hok (by simp)
      next nameDir hname =>
        split at hok
        · exact absurd hok (by simp)
        next os2Dir hos2 =>
          split at hok
          · exact absurd hok (by simp)
          split at hok
          · exact absurd hok (by simp)
          next os2 hunp =>
            split at hok
            · exact absurd hok (by simp)
            split at hok
            · exact absurd hok (by simp)
            next cs hhd =>
              split at hok
              · exact absurd hok (by simp)
              next nh hnh =>
                simp only [] at hok
                split at hok
                case isTrue hlt =>
                  rw [Except.ok.injEq] at hok
                  subst hok
                  obtain ⟨hp, hu, hc⟩ := unpackOs2_shape _ _ hunp
                  have hpack := packEotFixed_length
                    (82 + nh.length + make_root_string.length + data.length)
                    data.length os2 (os2.fsSelection % 2) cs hp hu hc
                  refine ⟨font, nameDir, nh, hgtd, hname, hnh, ?_, ?_⟩
                  · simp [hpack]; omega
                  · have hexp : packEotFixed
                        (82 + nh.length + make_root_string.length + data.length)
                        data.length os2 (os2.fsSelection % 2) cs ++ nh ++ make_root_string
                        = u32le (82 + nh.length + make_root_string.length + data.length)
                          ++ (u32le data.length ++ u32le 0x00020001 ++ u32le 0 ++
                            os2.panose ++ [0x01, os2.fsSelection % 2] ++
                            u32le os2.weight ++ u16le os2.fsType ++ u16le 0x504C ++
                            (os2.urange.map u32le).flatten ++
                            (os2.codepage.map u32le).flatten ++
                            u32le cs ++ List.replicate 18 0 ++ nh ++ make_root_string) := by
                      simp [packEotFixed, List.append_assoc]
                    rw [hexp, u32leAt_u32le, Nat.mod_eq_of_lt hlt]
                case isFalse => exact absurd hok (by simp)

/-- C1 witness: `make_eot_header` on the fully valid `minimalBlob`. -/
theorem c1_eot_size_exact_witness :
    ∃ font nameDir nameheaders,
      get_table_directory minimalBlob = Except.ok font ∧
      dirLookup font.tableDir TABLE_NAME = some nameDir ∧
      make_eot_name_headers minimalBlob nameDir = Except.ok nameheaders ∧
      minimalHeader.length = 82 + nameheaders.length + make_root_string.length ∧
      u32leAt minimalHeader 0 =
        82 + nameheaders.length + make_root_string.length + minimalBlob.length :=
  c1_eot_size_exact minimalBlob minimalHeader (by rfl)

/-- C5: whenever the parsed table directory lacks one of the required tables
    head, name, OS/2, `make_eot_header` fails with the missing-required-table
    error naming the first missing tag in that order, and produces no header
    bytes. -/
theorem c5_missing_required_table (data : Bytes) (font : Font) (tag : Nat)
    (hok : get_table_directory data = Except.ok font)
    (hmiss : firstMissingRequired font.tableDir = some tag) :
    make_eot_header data = Except.error (FontErr.missingRequiredTable tag) := by
  unfold firstMissingRequired at hmiss
  cases h1 : dirLookup font.tableDir TABLE_HEAD with
  | none =>
    rw [h1] at hmiss
    simp only [Option.isNone_none, if_true, Option.some.injEq] at hmiss
    subst hmiss
    simp [make_eot_header, hok, h1]
  | some hd =>
    rw [h1] at hmiss
    cases h2 : dirLookup font.tableDir TABLE_NAME with
    | none =>
      rw [h2] at hmiss
      simp only [Option.isNone_some, Option.isNone_none, if_false, if_true,
        Bool.false_eq_true, Option.some.injEq] at hmiss
      subst hmiss
      simp [make_eot_header, hok, h1, h2]
    | some nd =>
      rw [h2] at hmiss
      cases h3 : dirLookup font.tableDir TABLE_OS2 with
      | none =>
        rw [h3] at hmiss
        simp only [Option.isNone_some, Option.isNone_none, if_false, if_true,
          Bool.false_eq_true, Option.some.injEq] at hmiss
        subst hmiss
        simp [make_eot_header, hok, h1, h2, h3]
      | some od =>
        rw [h3] at hmiss
        simp at hmiss

/-- C5 witness: a 12-byte blob with a valid version and an empty table
    directory; the first missing tag is head. -/
theorem c5_missing_required_table_witness :
    get_table_directory emptyDirBlob = Except.ok ⟨0x10000, 0, []⟩ ∧
    firstMissingRequired ([] : List (Nat × TableEntry)) = some TABLE_HEAD ∧
    make_eot_header emptyDirBlob =
      Except.error (FontErr.missingRequiredTable TABLE_HEAD) :=
  ⟨by rfl, by rfl,
    c5_missing_required_table emptyDirBlob ⟨0x10000, 0, []⟩ TABLE_HEAD
      (by rfl) (by rfl)⟩

/-- C10: `badOffsetBlob` passes the SFNT-header check, the directory-count
    check, the required-table checks and the OS/2 declared-length check, yet
    its OS/2 offset (1000) points past the end of the 78-byte blob, and
    `make_eot_header` raises a raw struct-unpack error — a constructor
    distinct from every documented `FontError`. -/
theorem c10_offsets_never_bounds_checked :
    (get_table_directory badOffsetBlob).isOk = true ∧
    firstMissingRequired
      ((get_table_directory badOffsetBlob).toOption.getD ⟨0, 0, []⟩).tableDir = none ∧
    (∃ e, dirLookup
        ((get_table_directory badOffsetBlob).toOption.getD ⟨0, 0, []⟩).tableDir
        TABLE_OS2 = some e ∧
      86 ≤ e.length ∧ badOffsetBlob.length ≤ e.offset) ∧
    make_eot_header badOffsetBlob = Except.error FontErr.structError := by
  refine ⟨by rfl, by rfl, ⟨⟨1000, 86, 0⟩, by rfl, by decide, by decide⟩, by rfl⟩

end Eot

namespace GoPlug

/-! Helper lemmas for the filesystem model. -/

/-- Boolean prefix test characterized by an appended tail. -/
theorem isPrefixOf_exists : ∀ l₁ l₂ : List String,
    l₁.isPrefixOf l₂ = true ↔ ∃ t, l₂ = l₁ ++ t := by
  intro l₁
  induction l₁ with
  | nil => intro l₂; simp [List.isPrefixOf]
  | cons a l ih =>
    intro l₂
    cases l₂ with
    | nil => simp [List.isPrefixOf]
    | cons b t =>
      simp only [List.isPrefixOf, Bool.and_eq_true, beq_iff_eq, ih t,
        List.cons_append, List.cons.injEq]
      constructor
      · rintro ⟨rfl, u, rfl⟩; exact ⟨u, rfl, rfl⟩
      · rintro ⟨u, rfl, rfl⟩; exact ⟨rfl, u, rfl⟩

/-- A list prefixed by `a ++ [x]` never prefixes one continuing `a` with a
    different component `y`. -/
theorem isPrefixOf_append_cons_ne (a : List String) (x y : String)
    (l r : List String) (hxy : x ≠ y) :
    (a ++ x :: l).isPrefixOf (a ++ y :: r) = false := by
  induction a with
  | nil => simp [List.isPrefixOf, hxy]
  | cons c t ih => simp [List.isPrefixOf, ih]

/-- What a successful `makedirs` does: every prefix becomes a directory,
    everything else is untouched. -/
theorem makedirs_ok_elim (fs fs' : FS) (p : Path)
    (h : makedirs fs p = Except.ok fs') :
    ∀ q, fs' q = if q ∈ p.inits then some Node.dir else fs q := by
  unfold makedirs at h
  split at h
  · rw [Except.ok.injEq] at h
    subst h
    intro q
    rfl
  · simp at h

/-- `makedirs` succeeds whenever every prefix is a directory or missing. -/
theorem makedirs_of_all (fs : FS) (p : Path)
    (h : p.inits.all (fun q => dirOrMissing fs q) = true) :
    makedirs fs p =
      Except.ok (fun q => if q ∈ p.inits then some Node.dir else fs q) := by
  unfold makedirs
  rw [if_pos h]

/-- Inversion of a successful `pull`: the two `makedirs` steps succeeded and
    the result is the copy of the source tree over the second state. -/
theorem pull_ok_elim (g : Cfg) (fs fs1 : FS) (h : pull g fs = Except.ok fs1) :
    ∃ fsA fsB,
      makedirs fs (gopathSrc g) = Except.ok fsA ∧
      makedirs (if islink fsA (packagePath g) then removePath fsA (packagePath g)
        else fsA) (packagePath g).dropLast = Except.ok fsB ∧
      fs1 = link_or_copy_tree fsB g.sourcedir (packagePath g) := by
  cases hA : makedirs fs (gopathSrc g) with
  | error e =>
    simp only [pull, bind, Except.bind, hA] at h
    exact absurd h (by simp)
  | ok fsA =>
    cases hB : makedirs (if islink fsA (packagePath g)
        then removePath fsA (packagePath g) else fsA)
        (packagePath g).dropLast with
    | error e =>
      simp only [pull, bind, Except.bind, hA, hB] at h
      exact absurd h (by simp)
    | ok fsB =>
      simp only [pull, bind, Except.bind, hA, hB, pure, Except.pure,
        Except.ok.injEq] at h
      exact ⟨fsA, fsB, rfl, hB, h.symm⟩

/-- C8: staging is idempotent.  If a first `pull` (which drops any stale
    staging symlink at the import path before copying) succeeded, a second
    `pull` with the same source dir and import path does not error and
    produces the very same filesystem — in particular the same staged source
    tree.  The hypotheses say that the source dir lies outside the staging
    area `partdir/go/src`, that it is a directory, and that the import path
    is non-empty, as in any real invocation. -/
theorem c8_pull_idempotent (g : Cfg) (fs fs1 : FS)
    (hsep : ∀ rel, (gopathSrc g).isPrefixOf (g.sourcedir ++ rel) = false)
    (hsrc : fs g.sourcedir = some Node.dir)
    (hip : g.importpath ≠ [])
    (hpull : pull g fs = Except.ok fs1) :
    ∃ fs2, pull g fs1 = Except.ok fs2 ∧ ∀ q, fs2 q = fs1 q := by
  obtain ⟨fsA, fsB, hA, hB, hfs1⟩ := pull_ok_elim g fs fs1 hpull
  have hAq := makedirs_ok_elim _ _ _ hA
  have hBq := makedirs_ok_elim _ _ _ hB
  -- the target never prefixes anything inside the source tree
  have hTsep : ∀ rel, (packagePath g).isPrefixOf (g.sourcedir ++ rel) = false := by
    intro rel
    cases hb : (packagePath g).isPrefixOf (g.sourcedir ++ rel) with
    | false => rfl
    | true =>
      exfalso
      obtain ⟨u, hu⟩ := (isPrefixOf_exists _ _).mp hb
      have hcontra : (gopathSrc g).isPrefixOf (g.sourcedir ++ rel) = true := by
        rw [hu, packagePath, List.append_assoc]
        exact (isPrefixOf_exists _ _).mpr ⟨_, rfl⟩
      rw [hsep rel] at hcontra
      exact Bool.false_ne_true hcontra
  have hself : (packagePath g).isPrefixOf (packagePath g) = true :=
    (isPrefixOf_exists _ _).mpr ⟨[], by simp⟩
  have hsrcne : g.sourcedir ≠ packagePath g := by
    intro he
    have hx := hTsep []
    rw [List.append_nil, he, hself] at hx
    simp at hx
  have hlenT : (gopathSrc g).length < (packagePath g).length := by
    have hp : 0 < g.importpath.length := List.length_pos.mpr hip
    simp [packagePath]
    omega
  have hdrop : (packagePath g).dropLast = gopathSrc g ++ g.importpath.dropLast := by
    obtain ⟨x, bs, hx⟩ : ∃ x bs, g.importpath = x :: bs := by
      cases hgi : g.importpath with
      | nil => exact absurd hgi hip
      | cons x bs => exact ⟨x, bs, rfl⟩
    rw [packagePath, hx, List.dropLast_append_cons]
  have hlenD : (packagePath g).dropLast.length < (packagePath g).length := by
    have hd := List.length_dropLast (packagePath g)
    omega
  -- prefixes of the staging root are prefixes of the target's parent
  have hsub : ∀ q, q ∈ (gopathSrc g).inits → q ∈ (packagePath g).dropLast.inits := by
    intro q hq
    obtain ⟨u, hu⟩ := (List.mem_inits _ _).mp hq
    refine (List.mem_inits _ _).mpr ⟨u ++ g.importpath.dropLast, ?_⟩
    rw [← List.append_assoc, hu, hdrop]
  -- the target is longer than any prefix of its parent
  have hTnp : ∀ q, q ∈ (packagePath g).dropLast.inits →
      (packagePath g).isPrefixOf q = false := by
    intro q hq
    obtain ⟨u, hu⟩ := (List.mem_inits _ _).mp hq
    cases hb : (packagePath g).isPrefixOf q with
    | false => rfl
    | true =>
      exfalso
      obtain ⟨v, hv⟩ := (isPrefixOf_exists _ _).mp hb
      have h1 : q.length ≤ (packagePath g).dropLast.length := by
        rw [← hu]
        simp
      have h2 : (packagePath g).length ≤ q.length := by
        rw [hv]
        simp
      omega
  -- after the first pull, everything up to the target's parent is a dir
  have hF1 : ∀ q, q ∈ (packagePath g).dropLast.inits → fs1 q = some Node.dir := by
    intro q hq
    rw [hfs1]
    simp only [link_or_copy_tree, hTnp q hq, Bool.false_eq_true, if_false]
    rw [hBq q, if_pos hq]
  have hF2 : ∀ q, q ∈ (gopathSrc g).inits → fs1 q = some Node.dir :=
    fun q hq => hF1 q (hsub q hq)
  -- after the first pull, the source root is still a dir in fsB
  have hfsBsrc : fsB g.sourcedir = some Node.dir := by
    by_cases hmem : g.sourcedir ∈ (packagePath g).dropLast.inits
    · rw [hBq _, if_pos hmem]
    · rw [hBq _, if_neg hmem]
      have hfsA' : (if islink fsA (packagePath g)
          then removePath fsA (packagePath g) else fsA) g.sourcedir
          = fsA g.sourcedir := by
        split
        · unfold removePath
          rw [if_neg hsrcne]
        · rfl
      rw [hfsA', hAq _]
      by_cases hm2 : g.sourcedir ∈ (gopathSrc g).inits
      · rw [if_pos hm2]
      · rw [if_neg hm2]
        exact hsrc
  -- after the first pull, the import path itself holds the copied dir
  have hfs1T : fs1 (packagePath g) = some Node.dir := by
    rw [hfs1]
    simp [link_or_copy_tree, hself, List.drop_length, hfsBsrc]
  -- the first makedirs of the second pull succeeds and changes nothing
  have hall1 : (gopathSrc g).inits.all (fun q => dirOrMissing fs1 q) = true := by
    rw [List.all_eq_true]
    intro q hq
    simp [dirOrMissing, hF2 q hq]
  have hmd1 := makedirs_of_all fs1 (gopathSrc g) hall1
  -- the import path is not a symlink after the first pull
  have hCT : (if packagePath g ∈ (gopathSrc g).inits then some Node.dir
      else fs1 (packagePath g)) = some Node.dir := by
    by_cases hm : packagePath g ∈ (gopathSrc g).inits
    · rw [if_pos hm]
    · rw [if_neg hm]
      exact hfs1T
  have hlinkC : islink (fun q => if q ∈ (gopathSrc g).inits then some Node.dir
      else fs1 q) (packagePath g) = false := by
    simp only [islink]
    rw [hCT]
  -- the second makedirs of the second pull succeeds and changes nothing
  have hall2 : (packagePath g).dropLast.inits.all
      (fun q => dirOrMissing (fun q => if q ∈ (gopathSrc g).inits
        then some Node.dir else fs1 q) q) = true := by
    rw [List.all_eq_true]
    intro q hq
    by_cases hm : q ∈ (gopathSrc g).inits
    · simp [dirOrMissing, hm]
    · simp [dirOrMissing, hm, hF1 q hq]
  have hmd2 := makedirs_of_all _ _ hall2
  refine ⟨link_or_copy_tree
      (fun q => if q ∈ (packagePath g).dropLast.inits then some Node.dir
        else if q ∈ (gopathSrc g).inits then some Node.dir else fs1 q)
      g.sourcedir (packagePath g), ?_, ?_⟩
  · simp only [pull, bind, Except.bind, hmd1, hlinkC, Bool.false_eq_true,
      if_false, hmd2, pure, Except.pure]
  · intro q
    by_cases hpq : (packagePath g).isPrefixOf q = true
    · have hfs1q : fs1 q = fsB (g.sourcedir ++ q.drop (packagePath g).length) := by
        rw [hfs1]
        simp only [link_or_copy_tree, hpq, if_true]
      have hfs1x : fs1 (g.sourcedir ++ q.drop (packagePath g).length)
          = fsB (g.sourcedir ++ q.drop (packagePath g).length) := by
        rw [hfs1]
        simp only [link_or_copy_tree, hTsep (q.drop (packagePath g).length),
          Bool.false_eq_true, if_false]
      simp only [link_or_copy_tree, hpq, if_true]
      rw [hfs1q]
      by_cases hm1 : g.sourcedir ++ q.drop (packagePath g).length
          ∈ (packagePath g).dropLast.inits
      · rw [if_pos hm1, hBq _, if_pos hm1]
      · rw [if_neg hm1]
        by_cases hm2 : g.sourcedir ++ q.drop (packagePath g).length
            ∈ (gopathSrc g).inits
        · exact absurd (hsub _ hm2) hm1
        · rw [if_neg hm2]
          exact hfs1x
    · rw [Bool.not_eq_true] at hpq
      simp only [link_or_copy_tree, hpq, Bool.false_eq_true, if_false]
      by_cases hm1 : q ∈ (packagePath g).dropLast.inits
      · rw [if_pos hm1]
        exact (hF1 q hm1).symm
      · rw [if_neg hm1]
        by_cases hm2 : q ∈ (gopathSrc g).inits
        · rw [if_pos hm2]
          exact (hF2 q hm2).symm
        · rw [if_neg hm2]

/-- C8 witness: the concrete configuration `gEx` over `fsEx`, whose package
    path initially holds a stale symlink; the second `pull` succeeds and
    reproduces `fs1Ex`. -/
theorem c8_pull_idempotent_witness :
    ∃ fs2, pull gEx fs1Ex = Except.ok fs2 ∧ ∀ q, fs2 q = fs1Ex q :=
  c8_pull_idempotent gEx fsEx fs1Ex
    (fun rel => by simp [gopathSrc, gEx, List.isPrefixOf])
    (by rfl) (by simp [gEx]) (by rfl)

/-- C9: `clean_build` touches nothing outside the package-cache tree — in
    particular every path under the staged source tree
    `partdir/go/src/<importpath>` is unchanged — and when the package-cache
    tree is not a directory the whole operation is the identity (a no-op,
    not an error). -/
theorem c9_clean_build_only_pkg (g : Cfg) (fs : FS) :
    (∀ q, (gopathPkg g).isPrefixOf q = false → clean_build g fs q = fs q) ∧
    (∀ q, clean_build g fs (packagePath g ++ q) = fs (packagePath g ++ q)) ∧
    (isdir fs (gopathPkg g) = false → clean_build g fs = fs) := by
  refine ⟨?_, ?_, ?_⟩
  · intro q hq
    unfold clean_build
    split
    · simp [rmtree, hq]
    · rfl
  · intro q
    have e1 : gopathPkg g = (g.partdir ++ ["go"]) ++ ("pkg" :: ([] : List String)) := by
      simp [gopathPkg]
    have e2 : packagePath g ++ q =
        (g.partdir ++ ["go"]) ++ ("src" :: (g.importpath ++ q)) := by
      simp [packagePath, gopathSrc]
    have hpre : (gopathPkg g).isPrefixOf (packagePath g ++ q) = false := by
      rw [e1, e2]
      exact isPrefixOf_append_cons_ne _ _ _ _ _ (by decide)
    unfold clean_build
    split
    · simp [rmtree, hpre]
    · rfl
  · intro hnd
    unfold clean_build
    simp [hnd]

/-- C9 witness: `clean_build` on the concrete filesystem leaves the staged
    file under the package path unchanged. -/
theorem c9_clean_build_only_pkg_witness :
    clean_build gEx fsEx (packagePath gEx ++ ["f"]) =
      fsEx (packagePath gEx ++ ["f"]) :=
  (c9_clean_build_only_pkg gEx fsEx).2.1 ["f"]

end GoPlug
